import Mathlib

/-!
# Verification of the ftc_eval multi-AI evaluation engine

Shallow embedding of the consensus/aggregation core of the repository
(`src/ai_evaluator.py`, plus the single-evaluator consensus construction in
`src/evaluation_pipeline.py`), together with theorems settling the frozen
claims about it.

Modelling conventions:
* Python numbers (ints and floats flowing through scores and statistics) are
  modelled as `ℚ`.  JSON booleans parse to the rationals 1 / 0, mirroring the
  fact that Python's `bool` is a subtype of `int` and participates in
  arithmetic unchanged.
* Python dicts are modelled as association lists with distinct keys in
  insertion order; building a dict from a sequence of key/value pairs keeps
  the first position of a key and the last value (exactly Python semantics).
* `datetime.now().isoformat()` is modelled as an explicit `now : String`
  input to the normalizer; it is the only impure input of
  `_parse_evaluation_response`.
* Exceptions swallowed by the broad `except` in `_parse_evaluation_response`
  (JSON errors, `KeyError`/`AttributeError`/`TypeError` on malformed shapes)
  are modelled by `Option.none`.
* The JSON parser below models Python's `json.loads` on the inputs relevant
  here; it is liberal in some corners Python rejects (leading zeros, control
  characters inside strings) and does not decode `\u` surrogate pairs, none
  of which matters for the claims (which only rely on successful parses of
  well-formed documents and on failure of brace-unbalanced ones).
* The `o3`-specific extraction branch of `_parse_evaluation_response`
  (a cascade of three regexes) is not modelled: no claim concerns it.
  `Evaluator.other s` covers the providers handled by the default branch.
-/

set_option allowUnsafeReducibility true in
attribute [semireducible] Rat.add Rat.mul Rat.div Rat.inv Rat.sub Rat.neg Rat.normalize

abbrev Chars := List Char

/-- The opening brace character (written via its code point so that no brace
literal appears in the source text). -/
def lb : Char := Char.ofNat 123

/-- The closing brace character. -/
def rb : Char := Char.ofNat 125

/-- JSON values as produced by `json.loads`.  Objects are association lists
with distinct keys in insertion order; booleans are numbers (Python's `bool`
is an `int` subtype). -/
inductive JVal where
  | num (q : ℚ)
  | str (s : String)
  | null
  | arr (l : List JVal)
  | obj (l : List (String × JVal))

/-- Python dict insert: a repeated key keeps its first position and takes the
last value. -/
def dictInsert (d : List (String × JVal)) (k : String) (v : JVal) :
    List (String × JVal) :=
  if d.any (fun p => p.1 = k) then
    d.map (fun p => if p.1 = k then (k, v) else p)
  else d ++ [(k, v)]

/-- Build a Python dict from parsed key/value pairs. -/
def dictOf (ps : List (String × JVal)) : List (String × JVal) :=
  ps.foldl (fun d p => dictInsert d p.1 p.2) []

/-- `d[k]` / `k in d` lookup on a Python dict (keys are distinct). -/
def jGet (d : List (String × JVal)) (k : String) : Option JVal :=
  (d.find? (fun p => p.1 = k)).map (fun p => p.2)

/-- Python truthiness of a JSON-decoded value. -/
def pyTruthy : JVal → Bool
  | .num q => q ≠ 0
  | .str s => s ≠ ""
  | .null => false
  | .arr l => !l.isEmpty
  | .obj l => !l.isEmpty

/-- Python `len` on a JSON-decoded value (`None` models `TypeError`). -/
def pyLen : JVal → Option ℕ
  | .str s => some s.length
  | .arr l => some l.length
  | .obj l => some l.length
  | _ => none

/-- JSON whitespace skipping. -/
def skipWs : Chars → Chars
  | c :: cs => if c = ' ' ∨ c = '\n' ∨ c = '\t' ∨ c = '\r' then skipWs cs else c :: cs
  | [] => []

def isDigit (c : Char) : Bool := '0' ≤ c ∧ c ≤ '9'

def digitVal (c : Char) : ℕ := c.toNat - '0'.toNat

/-- Take a maximal run of decimal digits. -/
def takeDigits : Chars → (List ℕ × Chars)
  | c :: cs =>
    if isDigit c then
      let r := takeDigits cs
      (digitVal c :: r.1, r.2)
    else ([], c :: cs)
  | [] => ([], [])

def natOfDigits (ds : List ℕ) : ℕ := ds.foldl (fun a d => a * 10 + d) 0

/-- Parse a JSON number (integer part, optional fraction, optional exponent)
into an exact rational. -/
def parseNum (cs : Chars) : Option (ℚ × Chars) :=
  let (neg, cs₁) := match cs with
    | '-' :: t => (true, t)
    | _ => (false, cs)
  let (ds, cs₂) := takeDigits cs₁
  if ds.isEmpty then none else
  let ipart : ℚ := (natOfDigits ds : ℚ)
  let (fpart, cs₃) : ℚ × Chars := match cs₂ with
    | '.' :: t =>
      let (fs, t₂) := takeDigits t
      ((natOfDigits fs : ℚ) / ((10 : ℚ) ^ fs.length), t₂)
    | _ => (0, cs₂)
  match cs₃ with
  | '.' :: _ => none
  | _ =>
  let base := ipart + fpart
  let (val, cs₄) : Option ℚ × Chars := match cs₃ with
    | e :: t =>
      if e = 'e' ∨ e = 'E' then
        let (eneg, t₁) := match t with
          | '-' :: t₂ => (true, t₂)
          | '+' :: t₂ => (false, t₂)
          | _ => (false, t)
        let (es, t₃) := takeDigits t₁
        if es.isEmpty then (none, t₃)
        else if eneg then (some (base / ((10 : ℚ) ^ natOfDigits es)), t₃)
        else (some (base * ((10 : ℚ) ^ natOfDigits es)), t₃)
      else (some base, e :: t)
    | [] => (some base, [])
  match val with
  | none => none
  | some q => some (if neg then -q else q, cs₄)

/-- Decode one string-escape character. -/
def escChar (c : Char) : Option Char :=
  if c = '"' then some '"'
  else if c = '\\' then some '\\'
  else if c = '/' then some '/'
  else if c = 'n' then some '\n'
  else if c = 't' then some '\t'
  else if c = 'r' then some '\r'
  else if c = 'b' then some (Char.ofNat 8)
  else if c = 'f' then some (Char.ofNat 12)
  else none

def hexVal (c : Char) : Option ℕ :=
  if isDigit c then some (digitVal c)
  else if 'a' ≤ c ∧ c ≤ 'f' then some (c.toNat - 'a'.toNat + 10)
  else if 'A' ≤ c ∧ c ≤ 'F' then some (c.toNat - 'A'.toNat + 10)
  else none

/-- Parse the body of a JSON string (the opening quote already consumed). -/
def parseStr : Nat → Chars → Option (List Char × Chars)
  | 0, _ => none
  | _ + 1, [] => none
  | fuel + 1, c :: cs =>
    if c = '"' then some ([], cs)
    else if c = '\\' then
      match cs with
      | [] => none
      | e :: cs₂ =>
        if e = 'u' then
          match cs₂ with
          | h₁ :: h₂ :: h₃ :: h₄ :: cs₃ =>
            match hexVal h₁, hexVal h₂, hexVal h₃, hexVal h₄ with
            | some a, some b, some c', some d =>
              match parseStr fuel cs₃ with
              | some (s, r) => some (Char.ofNat (((a * 16 + b) * 16 + c') * 16 + d) :: s, r)
              | none => none
            | _, _, _, _ => none
          | _ => none
        else
          match escChar e with
          | some d =>
            match parseStr fuel cs₂ with
            | some (s, r) => some (d :: s, r)
            | none => none
          | none => none
    else
      match parseStr fuel cs with
      | some (s, r) => some (c :: s, r)
      | none => none

mutual

/-- Recursive-descent parser for one JSON value (models `json.loads`). -/
def parseVal : Nat → Chars → Option (JVal × Chars)
  | 0, _ => none
  | fuel + 1, cs =>
    match skipWs cs with
    | [] => none
    | c :: rest =>
      if c = lb then
        match skipWs rest with
        | c₂ :: rest₂ =>
          if c₂ = rb then some (.obj [], rest₂)
          else parseMembers fuel (c₂ :: rest₂) >>= fun (ps, r) => some (.obj (dictOf ps), r)
        | [] => none
      else if c = '[' then
        match skipWs rest with
        | c₂ :: rest₂ =>
          if c₂ = ']' then some (.arr [], rest₂)
          else parseItems fuel (c₂ :: rest₂) >>= fun (vs, r) => some (.arr vs, r)
        | [] => none
      else if c = '"' then
        (parseStr (fuel + 1) rest).map (fun p => (.str (String.mk p.1), p.2))
      else if c = 't' then
        match rest with
        | 'r' :: 'u' :: 'e' :: r => some (.num 1, r)
        | _ => none
      else if c = 'f' then
        match rest with
        | 'a' :: 'l' :: 's' :: 'e' :: r => some (.num 0, r)
        | _ => none
      else if c = 'n' then
        match rest with
        | 'u' :: 'l' :: 'l' :: r => some (.null, r)
        | _ => none
      else
        (parseNum (c :: rest)).map (fun p => (.num p.1, p.2))

/-- Parse `"key": value` pairs separated by commas, up to the closing brace. -/
def parseMembers : Nat → Chars → Option (List (String × JVal) × Chars)
  | 0, _ => none
  | fuel + 1, cs =>
    match skipWs cs with
    | '"' :: rest =>
      match parseStr (fuel + 1) rest with
      | none => none
      | some (k, r₁) =>
        match skipWs r₁ with
        | ':' :: r₂ =>
          match parseVal fuel r₂ with
          | none => none
          | some (v, r₃) =>
            match skipWs r₃ with
            | ',' :: r₄ =>
              match parseMembers fuel r₄ with
              | none => none
              | some (ps, r₅) => some ((String.mk k, v) :: ps, r₅)
            | d :: r₄ =>
              if d = rb then some ([(String.mk k, v)], r₄) else none
            | [] => none
        | _ => none
    | _ => none

/-- Parse array items separated by commas, up to the closing bracket. -/
def parseItems : Nat → Chars → Option (List JVal × Chars)
  | 0, _ => none
  | fuel + 1, cs =>
    match parseVal fuel cs with
    | none => none
    | some (v, r₁) =>
      match skipWs r₁ with
      | ',' :: r₂ =>
        match parseItems fuel r₂ with
        | none => none
        | some (vs, r₃) => some (v :: vs, r₃)
      | ']' :: r₂ => some ([v], r₂)
      | _ => none

end

/-- Model of `json.loads`: one JSON document, nothing but whitespace after. -/
def jsonLoads (cs : Chars) : Option JVal :=
  match parseVal (cs.length + 1) cs with
  | none => none
  | some (v, rest) => if (skipWs rest).isEmpty then some v else none

/-! ## Response extraction (`_parse_evaluation_response`, extraction stage)

The `claude_thinking`, `deepseek_reasoner` and default branches all extract
the JSON span with the greedy regex `\x7b.*\x7d` under `re.DOTALL`: the match
runs from the first opening brace to the last closing brace of the response,
and exists exactly when some closing brace occurs after the first opening
brace. -/

/-- Leftmost-greedy match of `\x7b.*\x7d` (DOTALL): drop everything before the
first opening brace, then cut after the last closing brace. -/
def extractDefault (cs : Chars) : Option Chars :=
  let rest := cs.dropWhile (fun c => c ≠ lb)
  let t := (rest.reverse.dropWhile (fun c => c ≠ rb)).reverse
  if t.isEmpty then none else some t

/-- Whether the greedy brace regex finds a match at all. -/
def spanFound (cs : Chars) : Bool :=
  (cs.dropWhile (fun c => c ≠ lb)).any (fun c => c = rb)

/-- `startsWithChars l p`: `p` is a prefix of `l`. -/
def startsWithChars : Chars → Chars → Bool
  | _, [] => true
  | [], _ :: _ => false
  | c :: cs, p :: ps => c = p && startsWithChars cs ps

/-- Python `pattern in text` on strings. -/
def hasSub : Chars → Chars → Bool
  | l, p =>
    if startsWithChars l p then true
    else match l with
      | [] => false
      | _ :: t => hasSub t p

/-- Python `str.replace`: replace every non-overlapping occurrence of `p`
(left to right, not rescanning the replacement) by `r`. -/
def replaceAll (p r : Chars) : Chars → Chars
  | [] => []
  | c :: t =>
    if h : startsWithChars (c :: t) p = true ∧ p ≠ [] then
      r ++ replaceAll p r ((c :: t).drop p.length)
    else
      c :: replaceAll p r t
termination_by l => l.length
decreasing_by
  · simp only [List.length_drop]
    have hp : 0 < p.length := List.length_pos.mpr h.2
    simp only [List.length_cons]
    omega
  · simp only [List.length_cons]
    omega

def endsWithRb (cs : Chars) : Bool := cs.getLast? = some rb

/-- The string `"character_authenticity"` with surrounding double quotes. -/
def keyQuoted : Chars := '"' :: "character_authenticity".toList ++ ['"']

/-- The string `"character_authenticity":`. -/
def keyQuotedColon : Chars := keyQuoted ++ [':']

/-- The truncation marker `"characte` searched by the repair heuristic. -/
def truncPat : Chars := '"' :: "characte".toList

/-- The splice `"character_authenticity": 8` followed by a closing brace. -/
def truncRepl : Chars := '"' :: "character_authenticity".toList ++ ['"', ':', ' ', '8', rb]

/-- The `deepseek_reasoner` truncation repair (`_parse_evaluation_response`,
lines 284–295): if the extracted span does not end with a closing brace,
either splice a placeholder value at the known key boundary or append a
closing brace. -/
def dsFix (t : Chars) : Chars :=
  if endsWithRb t then t
  else if hasSub t keyQuoted ∧ ¬ hasSub t keyQuotedColon then
    replaceAll truncPat truncRepl t
  else t ++ [rb]

/-- The evaluator identifiers whose parsing branches are modelled.  The
`o3`-specific extraction cascade is not modelled (no claim concerns it);
`other s` stands for any identifier handled by the default branch. -/
inductive Evaluator where
  | claude_thinking
  | deepseek_reasoner
  | other (s : String)

def Evaluator.name : Evaluator → String
  | .claude_thinking => "claude_thinking"
  | .deepseek_reasoner => "deepseek_reasoner"
  | .other s => s

/-- Extraction stage per evaluator: the greedy brace span, post-processed by
the truncation repair for `deepseek_reasoner`. -/
def extractContent (ev : Evaluator) (cs : Chars) : Option Chars :=
  match extractDefault cs with
  | none => none
  | some s =>
    match ev with
    | .deepseek_reasoner => some (dsFix s)
    | _ => some s

/-! ## The evaluation record and its construction -/

/-- The six fixed evaluation criteria (`self.evaluation_criteria`). -/
def criteriaNames : List String :=
  ["character_immersion", "story_progression", "interactive_agency",
   "emotional_journey", "fantasy_fulfillment", "character_authenticity"]

/-- Provenance metadata handed to the normalizer by the judge-call layer. -/
structure Metadata where
  reasoning_content : Option String
  thinking_content : Option String
  token_usage : Option (List (String × ℚ))
  response_time : Option ℚ
  model : Option String
  provider : Option String
  has_reasoning : Bool
  has_thinking : Bool
  api_method : Option String
  reasoning_effort : Option String
  thinking_budget : Option ℚ

/-- The `model_metadata` dict assembled by the normalizer. -/
structure ModelMeta where
  model : Option String
  provider : Option String
  has_reasoning : Bool
  has_thinking : Bool
  api_method : Option String
  reasoning_effort : Option String
  thinking_budget : Option ℚ

/-- `EvaluationResult` (the per-judge record).  `scores` is the parsed scores
dict with its numeric values; `reasoning` is the parsed reasoning value
stored as-is. -/
structure EvaluationResult where
  evaluator : String
  timestamp : String
  scores : List (String × ℚ)
  reasoning : JVal
  overall_score : ℚ
  confidence : ℚ
  raw_response : String
  reasoning_content : Option String
  thinking_content : Option String
  token_usage : Option (List (String × ℚ))
  response_time : Option ℚ
  model_metadata : Option ModelMeta

def asObj : JVal → Option (List (String × JVal))
  | .obj l => some l
  | _ => none

/-- Apply a fallible function to every element, failing on the first
failure (the behaviour of the Python expression evaluating all elements
inside one `sum`, where a bad element raises). -/
def mapOption {α β : Type} (f : α → Option β) : List α → Option (List β)
  | [] => some []
  | a :: t =>
    match f a with
    | none => none
    | some b => (mapOption f t).map (fun bs => b :: bs)

def asNum : JVal → Option ℚ
  | .num q => some q
  | _ => none

/-- `_calculate_response_confidence`: base 0.5, plus 0.2 / 0.1 for average
reasoning length over 100 / 50, plus 0.1 for each truthy extra field, capped
at 1.0.  `none` models the `TypeError`/`AttributeError` raised when the
reasoning value is truthy but not a dict, or a reasoning value has no `len`. -/
def calculate_response_confidence (fields : List (String × JVal)) : Option ℚ :=
  let reasoningV := (jGet fields "reasoning").getD (JVal.obj [])
  let rconf : Option ℚ :=
    if pyTruthy reasoningV then
      match reasoningV with
      | .obj rl =>
        match mapOption (fun p => pyLen p.2) rl with
        | some lens =>
          let avg : ℚ := ((lens.map (fun n => (n : ℚ))).sum) / (rl.length : ℚ)
          some (if 100 < avg then 1/5 else if 50 < avg then 1/10 else 0)
        | none => none
      | _ => none
    else some 0
  match rconf with
  | none => none
  | some rc =>
    let tb : String → ℚ := fun k =>
      if ((jGet fields k).map pyTruthy).getD false then 1/10 else 0
    some (min (1/2 + rc + tb "key_strengths" + tb "key_weaknesses"
               + tb "improvement_recommendations") 1)

/-- Validation stage of `_parse_evaluation_response` (lines 310–330): require
`scores` and `reasoning` fields, require every criterion among the score
keys, extract the numeric score values (a non-numeric value raises a
`TypeError` in `sum`, caught as failure), and compute the confidence.
Returns the validated scores, the reasoning value and the confidence. -/
def collectParts (v : JVal) : Option (List (String × ℚ) × JVal × ℚ) := do
  let fields ← asObj v
  let _scoresV ← jGet fields "scores"
  let reasoningV ← jGet fields "reasoning"
  let sp ← asObj _scoresV
  if criteriaNames.all (fun c => sp.any (fun p => p.1 = c)) then
    let sq ← mapOption (fun p => (asNum p.2).map (fun q => (p.1, q))) sp
    let conf ← calculate_response_confidence fields
    pure (sq, reasoningV, conf)
  else
    none

/-- Record assembly (`_parse_evaluation_response`, lines 326–369):
`overall_score` is `sum(scores.values()) / len(scores)`, the timestamp is
the wall-clock instant of the parse, and the provenance fields are copied
from the metadata when present. -/
def buildRecord (ev : Evaluator) (resp : String) (md : Option Metadata)
    (now : String) (parts : List (String × ℚ) × JVal × ℚ) : EvaluationResult :=
  { evaluator := ev.name
    timestamp := now
    scores := parts.1
    reasoning := parts.2.1
    overall_score := (parts.1.map (fun p => p.2)).sum / (parts.1.length : ℚ)
    confidence := parts.2.2
    raw_response := resp
    reasoning_content := md.bind (fun m => m.reasoning_content)
    thinking_content := md.bind (fun m => m.thinking_content)
    token_usage := md.bind (fun m => m.token_usage)
    response_time := md.bind (fun m => m.response_time)
    model_metadata := md.map (fun m =>
      { model := m.model, provider := m.provider
        has_reasoning := m.has_reasoning, has_thinking := m.has_thinking
        api_method := m.api_method, reasoning_effort := m.reasoning_effort
        thinking_budget := m.thinking_budget }) }

/-- Validation and record construction combined. -/
def validateBuild (ev : Evaluator) (resp : String) (md : Option Metadata)
    (now : String) (v : JVal) : Option EvaluationResult :=
  (collectParts v).map (buildRecord ev resp md now)

/-- `_parse_evaluation_response`: extraction, JSON decoding, validation and
record construction.  `now` models the `datetime.now().isoformat()` call. -/
def parse_evaluation_response (ev : Evaluator) (resp : String)
    (md : Option Metadata) (now : String) : Option EvaluationResult :=
  (extractContent ev resp.toList).bind (fun s =>
    (jsonLoads s).bind (fun v => validateBuild ev resp md now v))

/-! ## The consensus engine (`calculate_consensus` and helpers)

Records reaching `calculate_consensus` have passed validation, so their
scores dicts contain all six criteria; the consensus code reads exactly those
six keys.  Such records are therefore modelled by total score functions on
the criterion type. -/

/-- The six fixed evaluation criteria as a closed type. -/
inductive Criterion where
  | character_immersion
  | story_progression
  | interactive_agency
  | emotional_journey
  | fantasy_fulfillment
  | character_authenticity
deriving DecidableEq

/-- The criteria in the order of `self.evaluation_criteria`. -/
def criteriaList : List Criterion :=
  [.character_immersion, .story_progression, .interactive_agency,
   .emotional_journey, .fantasy_fulfillment, .character_authenticity]

def Criterion.cname : Criterion → String
  | .character_immersion => "character_immersion"
  | .story_progression => "story_progression"
  | .interactive_agency => "interactive_agency"
  | .emotional_journey => "emotional_journey"
  | .fantasy_fulfillment => "fantasy_fulfillment"
  | .character_authenticity => "character_authenticity"

/-- A validated evaluation record as seen by the consensus engine. -/
structure ERec where
  scores : Criterion → ℚ
  overall_score : ℚ
  confidence : ℚ

/-- `ConsensusAnalysis`. -/
structure ConsensusAnalysis where
  consensus_scores : Criterion → ℚ
  overall_consensus : ℚ
  agreement_level : ℚ
  disagreements : List String
  confidence_level : ℚ
  outlier_evaluations : List String
  actionable_insights : List String

/-- `self.agreement_threshold`. -/
def agreementThreshold : ℚ := 2

/-- Round half to even at integer precision (the rounding used by Python's
fixed-point formatting, on values whose binary representation is exact). -/
def roundHalfEven (q : ℚ) : ℤ :=
  let f := ⌊q⌋
  let r := q - f
  if r < 1/2 then f
  else if 1/2 < r then f + 1
  else if f % 2 = 0 then f else f + 1

/-- Python `format(q, ".1f")`: one decimal digit, round half to even. -/
def fmt1 (q : ℚ) : String :=
  let t := roundHalfEven (q * 10)
  let n := t.natAbs
  let s := toString (n / 10) ++ "." ++ toString (n % 10)
  if t < 0 then "-" ++ s else s

/-- Stable insertion into an ascending list. -/
def insortQ (x : ℚ) : List ℚ → List ℚ
  | [] => [x]
  | y :: ys => if x ≤ y then x :: y :: ys else y :: insortQ x ys

/-- Ascending sort (the ordering `statistics.median` applies). -/
def sortQ (l : List ℚ) : List ℚ := l.foldr insortQ []

/-- `statistics.median`: the middle element of the sorted list, or the mean
of the two middle elements for even length.  (Python raises on the empty
list; the consensus engine only calls this on nonempty score lists.) -/
def median (l : List ℚ) : ℚ :=
  let s := sortQ l
  let n := s.length
  if n % 2 = 1 then s.getD (n / 2) 0
  else (s.getD (n / 2 - 1) 0 + s.getD (n / 2) 0) / 2

/-- Python `max` over a nonempty list. -/
def pyMax : List ℚ → ℚ
  | [] => 0
  | x :: xs => xs.foldl max x

/-- Python `min` over a nonempty list. -/
def pyMin : List ℚ → ℚ
  | [] => 0
  | x :: xs => xs.foldl min x

/-- The per-criterion score list, in evaluator insertion order. -/
def scoreList (recs : List (String × ERec)) (c : Criterion) : List ℚ :=
  recs.map (fun p => p.2.scores c)

/-- One pairwise agreement: `max(0, 1 - diff / threshold)`. -/
def pairAgree (a b : ℚ) : ℚ := max 0 (1 - |a - b| / agreementThreshold)

/-- All pairwise agreements over index pairs `i < j`, in the loop order of
`_calculate_agreement_level`. -/
def pairAgreements : List ℚ → List ℚ
  | [] => []
  | x :: xs => xs.map (pairAgree x) ++ pairAgreements xs

/-- Python `sum(l)/len(l)` (0 for the empty list; callers guard emptiness). -/
def avgQ (l : List ℚ) : ℚ := l.sum / (l.length : ℚ)

/-- `_calculate_agreement_level`: per criterion the mean pairwise agreement
(skipped when there are no pairs), averaged over the six criteria. -/
def calculate_agreement_level (recs : List (String × ERec)) : ℚ :=
  ((criteriaList.map (fun c =>
      let pa := pairAgreements (scoreList recs c)
      if pa.isEmpty then 0 else avgQ pa)).sum) / (criteriaList.length : ℚ)

/-- The disagreement entry `f"{criterion} (range: {score_range:.1f})"`. -/
def mkDisagStr (c : Criterion) (range : ℚ) : String :=
  c.cname ++ " (range: " ++ fmt1 range ++ ")"

/-- `max - min` of the per-criterion scores. -/
def rangeOf (recs : List (String × ERec)) (c : Criterion) : ℚ :=
  pyMax (scoreList recs c) - pyMin (scoreList recs c)

/-- `_identify_outliers`: an evaluator is an outlier when it differs from the
consensus score by more than the threshold on more than half of the six
criteria (Python compares the count against `6 / 2 = 3.0`). -/
def identify_outliers (recs : List (String × ERec)) (consensus : Criterion → ℚ) :
    List String :=
  recs.filterMap (fun p =>
    let cnt := criteriaList.countP
      (fun c => agreementThreshold < |p.2.scores c - consensus c|)
    if ((criteriaList.length : ℚ) / 2 < (cnt : ℚ)) then some p.1 else none)

/-- The fixed per-criterion weakness sentence of
`_generate_actionable_insights`. -/
def weakInsight (c : Criterion) (score : ℚ) : String :=
  match c with
  | .character_immersion =>
      "Character immersion needs improvement (score: " ++ fmt1 score ++
      ") - enhance world-building and environmental details"
  | .story_progression =>
      "Story progression is weak (score: " ++ fmt1 score ++
      ") - add more narrative hooks and plot advancement"
  | .interactive_agency =>
      "User agency is limited (score: " ++ fmt1 score ++
      ") - make character more responsive to user input"
  | .emotional_journey =>
      "Emotional depth lacking (score: " ++ fmt1 score ++
      ") - expand emotional range and authentic reactions"
  | .fantasy_fulfillment =>
      "Fantasy fulfillment low (score: " ++ fmt1 score ++
      ") - enhance wish fulfillment and escapism elements"
  | .character_authenticity =>
      "Character authenticity issues (score: " ++ fmt1 score ++
      ") - improve consistency and believability"

/-- The strengths sentence listing all criteria scoring above 8. -/
def strongInsight (strong : List Criterion) : String :=
  "Character excels at: " ++ String.intercalate ", " (strong.map Criterion.cname) ++
  " - leverage these strengths"

/-- The human-review sentence naming the disputed criteria. -/
def reviewInsight (disagreements : List String) : String :=
  "Evaluator disagreement on: " ++ String.intercalate ", " disagreements ++
  " - may need human review"

/-- `_generate_actionable_insights`: weakness sentences for criteria scoring
below 6 (in criteria order), then one strengths sentence if any criterion
scores above 8, then one review sentence if there are disagreements. -/
def generate_actionable_insights (cs : Criterion → ℚ)
    (disagreements : List String) : List String :=
  let weak := criteriaList.filter (fun c => cs c < 6)
  let strong := criteriaList.filter (fun c => 8 < cs c)
  (weak.map (fun c => weakInsight c (cs c)))
    ++ (if strong.isEmpty then [] else [strongInsight strong])
    ++ (if disagreements.isEmpty then [] else [reviewInsight disagreements])

/-- The single-record degenerate consensus built by `calculate_consensus`
when fewer than two records are supplied. -/
def singleConsensus (r : ERec) : ConsensusAnalysis :=
  { consensus_scores := r.scores
    overall_consensus := r.overall_score
    agreement_level := 1
    disagreements := []
    confidence_level := r.confidence
    outlier_evaluations := []
    actionable_insights := [] }

/-- `calculate_consensus`.  The input is the evaluator → record mapping in
insertion order; `none` models the `IndexError` raised on an empty mapping. -/
def calculate_consensus (recs : List (String × ERec)) : Option ConsensusAnalysis :=
  match recs with
  | [] => none
  | r :: rs =>
    if rs.isEmpty then some (singleConsensus r.2)
    else
      let all := r :: rs
      let consensusScores : Criterion → ℚ := fun c => median (scoreList all c)
      let disagreements := criteriaList.filterMap (fun c =>
        if agreementThreshold < rangeOf all c
        then some (mkDisagStr c (rangeOf all c)) else none)
      some
        { consensus_scores := consensusScores
          overall_consensus :=
            ((criteriaList.map consensusScores).sum) / (criteriaList.length : ℚ)
          agreement_level := calculate_agreement_level all
          disagreements := disagreements
          confidence_level := avgQ (all.map (fun p => p.2.confidence))
          outlier_evaluations := identify_outliers all consensusScores
          actionable_insights :=
            generate_actionable_insights consensusScores disagreements }

/-- The single-evaluator `ConsensusAnalysis` assembled inline by
`EvaluationPipeline._evaluate_character_scenario` (lines 293–301). -/
def pipelineSingleConsensus (r : ERec) : ConsensusAnalysis :=
  { consensus_scores := r.scores
    overall_consensus := r.overall_score
    agreement_level := 1
    disagreements := []
    confidence_level := r.confidence
    outlier_evaluations := []
    actionable_insights := [] }

/-! ## Helper lemmas -/

theorem calc_multi (recs : List (String × ERec)) (h : 2 ≤ recs.length) :
    calculate_consensus recs = some
      { consensus_scores := fun c => median (scoreList recs c)
        overall_consensus :=
          ((criteriaList.map (fun c => median (scoreList recs c))).sum)
            / (criteriaList.length : ℚ)
        agreement_level := calculate_agreement_level recs
        disagreements := criteriaList.filterMap (fun c =>
          if agreementThreshold < rangeOf recs c
          then some (mkDisagStr c (rangeOf recs c)) else none)
        confidence_level := avgQ (recs.map (fun p => p.2.confidence))
        outlier_evaluations :=
          identify_outliers recs (fun c => median (scoreList recs c))
        actionable_insights :=
          generate_actionable_insights (fun c => median (scoreList recs c))
            (criteriaList.filterMap (fun c =>
              if agreementThreshold < rangeOf recs c
              then some (mkDisagStr c (rangeOf recs c)) else none)) } := by
  cases recs with
  | nil => simp at h
  | cons r rs =>
    cases rs with
    | nil => simp at h
    | cons r₂ rs₂ => rfl

theorem filterMap_if_eq_filter_map {α β : Type} (l : List α) (p : α → Prop)
    [DecidablePred p] (f : α → β) :
    l.filterMap (fun a => if p a then some (f a) else none)
      = (l.filter (fun a => p a)).map f := by
  induction l with
  | nil => rfl
  | cons a t ih =>
    by_cases hp : p a <;> simp [List.filterMap_cons, List.filter_cons, hp, ih]

theorem mem_pairAgreements {x : ℚ} {l : List ℚ} (hx : x ∈ pairAgreements l) :
    ∃ a ∈ l, ∃ b ∈ l, x = pairAgree a b := by
  induction l with
  | nil => simp [pairAgreements] at hx
  | cons y t ih =>
    simp only [pairAgreements, List.mem_append, List.mem_map] at hx
    rcases hx with ⟨b, hb, rfl⟩ | hx
    · exact ⟨y, List.mem_cons_self y t, b, List.mem_cons_of_mem y hb, rfl⟩
    · rcases ih hx with ⟨a, ha, b, hb, rfl⟩
      exact ⟨a, List.mem_cons_of_mem y ha, b, List.mem_cons_of_mem y hb, rfl⟩

theorem pairAgree_self (a : ℚ) : pairAgree a a = 1 := by
  simp [pairAgree]

theorem pairAgreements_ne_nil {l : List ℚ} (h : 2 ≤ l.length) :
    pairAgreements l ≠ [] := by
  match l, h with
  | x :: y :: t, _ => simp [pairAgreements]

theorem sum_of_all_one {l : List ℚ} (h : ∀ x ∈ l, x = 1) :
    l.sum = (l.length : ℚ) := by
  induction l with
  | nil => simp
  | cons a t ih =>
    have ha := h a (List.mem_cons_self a t)
    have ht := ih (fun x hx => h x (List.mem_cons_of_mem a hx))
    simp [ha, ht]
    ring

theorem avgQ_of_all_one {l : List ℚ} (hne : l ≠ []) (h : ∀ x ∈ l, x = 1) :
    avgQ l = 1 := by
  have hlen : (l.length : ℚ) ≠ 0 := by
    simp only [ne_eq, Nat.cast_eq_zero, List.length_eq_zero]
    exact hne
  simp [avgQ, sum_of_all_one h, div_self hlen]

/-! ## Claims about the consensus engine -/

/-- C2: with exactly one record, `calculate_consensus` degenerates to that
record: its scores (numerically unchanged by the float cast), its overall
score, agreement 1.0, no disagreements, no outliers, and its confidence. -/
theorem consensus_single_record (n : String) (r : ERec) :
    ∃ c, calculate_consensus [(n, r)] = some c ∧
      c.consensus_scores = r.scores ∧
      c.overall_consensus = r.overall_score ∧
      c.agreement_level = 1 ∧
      c.disagreements = [] ∧
      c.outlier_evaluations = [] ∧
      c.confidence_level = r.confidence :=
  ⟨singleConsensus r, rfl, rfl, rfl, rfl, rfl, rfl, rfl⟩

/-- C10: consensus derived from a single evaluator — both the one-record
branch of `calculate_consensus` and the inline construction of the
per-character/scenario pipeline path — always carries an empty
`actionable_insights`, whatever the scores are (in particular below 6 or
above 8). -/
theorem single_evaluator_insights_empty (n : String) (r : ERec) :
    (calculate_consensus [(n, r)]).map (fun c => c.actionable_insights)
        = some [] ∧
    (pipelineSingleConsensus r).actionable_insights = [] :=
  ⟨rfl, rfl⟩

/-- C1: with two or more records, every consensus score is the statistical
median of the per-record scores, a criterion is recorded into
`disagreements` (with its max − min range) exactly when that range exceeds
the 2.0 threshold, and `overall_consensus` is the mean of the six consensus
scores. -/
theorem consensus_median_disagreements_mean (recs : List (String × ERec))
    (h : 2 ≤ recs.length) :
    ∃ c, calculate_consensus recs = some c ∧
      (∀ crit, c.consensus_scores crit = median (scoreList recs crit)) ∧
      c.disagreements =
        (criteriaList.filter (fun crit => agreementThreshold < rangeOf recs crit)).map
          (fun crit => mkDisagStr crit (rangeOf recs crit)) ∧
      c.overall_consensus =
        ((criteriaList.map (fun crit => median (scoreList recs crit))).sum) / 6 := by
  refine ⟨_, calc_multi recs h, fun crit => rfl, ?_, ?_⟩
  · exact filterMap_if_eq_filter_map criteriaList
      (fun crit => agreementThreshold < rangeOf recs crit)
      (fun crit => mkDisagStr crit (rangeOf recs crit))
  · have h6 : (criteriaList.length : ℚ) = 6 := by norm_num [criteriaList]
    show _ / (criteriaList.length : ℚ) = _ / 6
    rw [h6]

/-- C3: with two or more records, the agreement level is the mean over the
six criteria of the mean pairwise agreement
`max(0, 1 - diff / 2.0)` over unordered evaluator pairs; it equals 1.0 when
all evaluators give the same score on every criterion. -/
theorem agreement_level_pairwise_mean (recs : List (String × ERec))
    (h : 2 ≤ recs.length) :
    ∃ c, calculate_consensus recs = some c ∧
      c.agreement_level =
        ((criteriaList.map
            (fun crit => avgQ (pairAgreements (scoreList recs crit)))).sum) / 6 ∧
      ((∀ crit, ∀ p ∈ recs, ∀ q ∈ recs, p.2.scores crit = q.2.scores crit) →
        c.agreement_level = 1) := by
  have hlen : ∀ crit, 2 ≤ (scoreList recs crit).length := by
    intro crit; simpa [scoreList] using h
  have hemp : ∀ crit, (pairAgreements (scoreList recs crit)).isEmpty = false := by
    intro crit
    cases hpa : pairAgreements (scoreList recs crit) with
    | nil => exact absurd hpa (pairAgreements_ne_nil (hlen crit))
    | cons a t => rfl
  have key : calculate_agreement_level recs =
      ((criteriaList.map
          (fun crit => avgQ (pairAgreements (scoreList recs crit)))).sum) / 6 := by
    unfold calculate_agreement_level
    have h6 : (criteriaList.length : ℚ) = 6 := by norm_num [criteriaList]
    rw [h6]
    congr 1
    congr 1
    apply List.map_congr_left
    intro crit _
    simp [hemp crit]
  refine ⟨_, calc_multi recs h, key, ?_⟩
  intro hall
  show calculate_agreement_level recs = 1
  rw [key]
  have hone : ∀ crit ∈ criteriaList,
      avgQ (pairAgreements (scoreList recs crit)) = 1 := by
    intro crit _
    apply avgQ_of_all_one (pairAgreements_ne_nil (hlen crit))
    intro x hx
    rcases mem_pairAgreements hx with ⟨a, ha, b, hb, rfl⟩
    simp only [scoreList, List.mem_map] at ha hb
    rcases ha with ⟨p, hp, rfl⟩
    rcases hb with ⟨q, hq, rfl⟩
    rw [hall crit p hp q hq]
    exact pairAgree_self _
  rw [List.map_congr_left hone]
  norm_num [criteriaList]

/-- C4: with two or more records, an evaluator appears in
`outlier_evaluations` exactly when it differs from the consensus score by
more than the 2.0 threshold on more than 3 of the 6 criteria. -/
theorem outlier_iff_majority_disagreement (recs : List (String × ERec))
    (h : 2 ≤ recs.length) :
    ∃ c, calculate_consensus recs = some c ∧
      ∀ e, e ∈ c.outlier_evaluations ↔
        ∃ r, (e, r) ∈ recs ∧
          3 < criteriaList.countP
            (fun crit =>
              agreementThreshold < |r.scores crit - c.consensus_scores crit|) := by
  refine ⟨_, calc_multi recs h, ?_⟩
  intro e
  show e ∈ identify_outliers recs (fun c => median (scoreList recs c)) ↔ _
  unfold identify_outliers
  rw [List.mem_filterMap]
  have hcast : ∀ n : ℕ, ((criteriaList.length : ℚ) / 2 < (n : ℚ)) ↔ 3 < n := by
    intro n
    have h6 : (criteriaList.length : ℚ) = 6 := by norm_num [criteriaList]
    rw [h6]
    constructor
    · intro hlt
      exact_mod_cast (by linarith : (3 : ℚ) < (n : ℚ))
    · intro hlt
      have : (3 : ℚ) < (n : ℚ) := by exact_mod_cast hlt
      linarith
  constructor
  · rintro ⟨p, hp, hf⟩
    by_cases hc : ((criteriaList.length : ℚ) / 2 <
        ((criteriaList.countP (fun crit =>
          agreementThreshold < |p.2.scores crit - median (scoreList recs crit)|)) : ℚ))
    · rw [if_pos hc] at hf
      have he : p.1 = e := Option.some.inj hf
      refine ⟨p.2, ?_, ?_⟩
      · rw [← he]
        exact hp
      · exact (hcast _).mp hc
    · rw [if_neg hc] at hf
      exact absurd hf (by simp)
  · rintro ⟨r, hr, hcnt⟩
    refine ⟨(e, r), hr, ?_⟩
    rw [if_pos ((hcast _).mpr hcnt)]

/-- C7: with two or more records, the actionable insights are, in order, one
weakness sentence per criterion scoring below 6, then one strengths sentence
if any criterion scores above 8, then one review sentence if there are
disagreements; criteria in the adequate band between 6 and 8 generate
neither a weakness nor a strength entry. -/
theorem actionable_insights_rules (recs : List (String × ERec))
    (h : 2 ≤ recs.length) :
    ∃ c, calculate_consensus recs = some c ∧
      c.actionable_insights =
        ((criteriaList.filter (fun crit => c.consensus_scores crit < 6)).map
            (fun crit => weakInsight crit (c.consensus_scores crit)))
          ++ (if (criteriaList.filter
                   (fun crit => 8 < c.consensus_scores crit)).isEmpty
              then []
              else [strongInsight (criteriaList.filter
                     (fun crit => 8 < c.consensus_scores crit))])
          ++ (if c.disagreements.isEmpty then []
              else [reviewInsight c.disagreements]) ∧
      (∀ crit, 6 ≤ c.consensus_scores crit → c.consensus_scores crit ≤ 8 →
        crit ∉ criteriaList.filter (fun x => c.consensus_scores x < 6) ∧
        crit ∉ criteriaList.filter (fun x => 8 < c.consensus_scores x)) := by
  refine ⟨_, calc_multi recs h, rfl, ?_⟩
  intro crit h6 h8
  constructor
  · intro hmem
    have hlt := (List.mem_filter.mp hmem).2
    simp only [decide_eq_true_eq] at hlt
    linarith
  · intro hmem
    have hlt := (List.mem_filter.mp hmem).2
    simp only [decide_eq_true_eq] at hlt
    linarith

/-! ## Concrete witness data for the consensus claims -/

/-- A judge scoring every criterion 7. -/
def wRec7 : ERec := ⟨fun _ => 7, 7, 1/2⟩

/-- A judge with one weak (5) and one strong (9) criterion. -/
def wRecMixed : ERec :=
  ⟨fun c => match c with
    | .character_immersion => 5
    | .story_progression => 9
    | _ => 7, 43/6, 1/2⟩

/-- A judge disagreeing with the 7-baseline by 5 points on 4 of 6 criteria. -/
def wRecLow : ERec :=
  ⟨fun c => match c with
    | .character_immersion => 2
    | .story_progression => 2
    | .interactive_agency => 2
    | .emotional_journey => 2
    | _ => 7, 13/3, 1/2⟩

theorem consensus_median_disagreements_mean_witness :
    ∃ c, calculate_consensus [("a", wRec7), ("b", wRecMixed)] = some c ∧
      (∀ crit, c.consensus_scores crit =
        median (scoreList [("a", wRec7), ("b", wRecMixed)] crit)) ∧
      c.disagreements =
        (criteriaList.filter (fun crit =>
          agreementThreshold < rangeOf [("a", wRec7), ("b", wRecMixed)] crit)).map
          (fun crit => mkDisagStr crit (rangeOf [("a", wRec7), ("b", wRecMixed)] crit)) ∧
      c.overall_consensus =
        ((criteriaList.map (fun crit =>
          median (scoreList [("a", wRec7), ("b", wRecMixed)] crit))).sum) / 6 :=
  consensus_median_disagreements_mean [("a", wRec7), ("b", wRecMixed)] (by decide)

theorem agreement_level_pairwise_mean_witness :
    ∃ c, calculate_consensus [("a", wRec7), ("b", wRec7), ("c", wRec7)] = some c ∧
      c.agreement_level =
        ((criteriaList.map (fun crit =>
          avgQ (pairAgreements
            (scoreList [("a", wRec7), ("b", wRec7), ("c", wRec7)] crit)))).sum) / 6 ∧
      ((∀ crit, ∀ p ∈ [("a", wRec7), ("b", wRec7), ("c", wRec7)],
          ∀ q ∈ [("a", wRec7), ("b", wRec7), ("c", wRec7)],
          p.2.scores crit = q.2.scores crit) →
        c.agreement_level = 1) :=
  agreement_level_pairwise_mean [("a", wRec7), ("b", wRec7), ("c", wRec7)] (by decide)

theorem outlier_iff_majority_disagreement_witness :
    ∃ c, calculate_consensus [("A", wRecLow), ("B", wRec7), ("C", wRec7)] = some c ∧
      ∀ e, e ∈ c.outlier_evaluations ↔
        ∃ r, (e, r) ∈ [("A", wRecLow), ("B", wRec7), ("C", wRec7)] ∧
          3 < criteriaList.countP
            (fun crit =>
              agreementThreshold < |r.scores crit - c.consensus_scores crit|) :=
  outlier_iff_majority_disagreement [("A", wRecLow), ("B", wRec7), ("C", wRec7)]
    (by decide)

theorem actionable_insights_rules_witness :
    ∃ c, calculate_consensus [("x", wRecMixed), ("y", wRecMixed)] = some c ∧
      c.actionable_insights =
        ((criteriaList.filter (fun crit => c.consensus_scores crit < 6)).map
            (fun crit => weakInsight crit (c.consensus_scores crit)))
          ++ (if (criteriaList.filter
                   (fun crit => 8 < c.consensus_scores crit)).isEmpty
              then []
              else [strongInsight (criteriaList.filter
                     (fun crit => 8 < c.consensus_scores crit))])
          ++ (if c.disagreements.isEmpty then []
              else [reviewInsight c.disagreements]) ∧
      (∀ crit, 6 ≤ c.consensus_scores crit → c.consensus_scores crit ≤ 8 →
        crit ∉ criteriaList.filter (fun x => c.consensus_scores x < 6) ∧
        crit ∉ criteriaList.filter (fun x => 8 < c.consensus_scores x)) :=
  actionable_insights_rules [("x", wRecMixed), ("y", wRecMixed)] (by decide)

/-! ## Helper lemmas for the normalizer claims -/

theorem extractDefault_eq_none {cs : Chars} (h : spanFound cs = false) :
    extractDefault cs = none := by
  have hall : ∀ x ∈ cs.dropWhile (fun c => !decide (c = lb)), ¬ x = rb := by
    simpa [spanFound] using h
  have h2 : (cs.dropWhile (fun c => c ≠ lb)).reverse.dropWhile
      (fun c => c ≠ rb) = [] := by
    apply List.dropWhile_eq_nil_iff.mpr
    intro x hx
    have hx' := List.mem_reverse.mp hx
    simp only [ne_eq, decide_not] at hx'
    simpa using hall x hx'
  simp only [extractDefault, h2]
  rfl

theorem extractContent_eq_none {ev : Evaluator} {cs : Chars}
    (h : extractDefault cs = none) : extractContent ev cs = none := by
  simp [extractContent, h]

theorem mapOption_num_isSome :
    ∀ (sp : List (String × JVal)), (∀ p ∈ sp, ∃ q, p.2 = JVal.num q) →
      ∃ sq, mapOption (fun p => (asNum p.2).map (fun q => (p.1, q))) sp = some sq := by
  intro sp h
  induction sp with
  | nil => exact ⟨[], rfl⟩
  | cons p t ih =>
    obtain ⟨q, hq⟩ := h p (List.mem_cons_self p t)
    obtain ⟨sq, hsq⟩ := ih (fun x hx => h x (List.mem_cons_of_mem p hx))
    refine ⟨(p.1, q) :: sq, ?_⟩
    have ha : asNum p.2 = some q := by rw [hq]; rfl
    simp [mapOption, ha, hsq]

/-- C6: the normalizer fails explicitly — it produces no record — when no
brace-delimited span is found, when the parsed object lacks a `scores` or a
`reasoning` field, or when any of the six criteria is absent from the
`scores` keys (the missing criteria being reported on the console, which
this pure model does not capture); and an empty `reasoning` mapping — all
six criteria missing from `reasoning` — alone never causes failure. -/
theorem normalizer_failure_modes :
    (∀ (ev : Evaluator) (resp : String) (md : Option Metadata) (now : String),
      spanFound resp.toList = false →
      parse_evaluation_response ev resp md now = none) ∧
    (∀ (ev : Evaluator) (resp : String) (md : Option Metadata) (now : String)
        (s : Chars) (fields : List (String × JVal)),
      extractContent ev resp.toList = some s →
      (jsonLoads s).bind asObj = some fields →
      (jGet fields "scores" = none ∨ jGet fields "reasoning" = none) →
      parse_evaluation_response ev resp md now = none) ∧
    (∀ (ev : Evaluator) (resp : String) (md : Option Metadata) (now : String)
        (s : Chars) (fields : List (String × JVal))
        (sp : List (String × JVal)) (cn : String),
      extractContent ev resp.toList = some s →
      (jsonLoads s).bind asObj = some fields →
      (jGet fields "scores").bind asObj = some sp →
      cn ∈ criteriaNames →
      sp.any (fun p => p.1 = cn) = false →
      parse_evaluation_response ev resp md now = none) ∧
    (∀ (ev : Evaluator) (resp : String) (md : Option Metadata) (now : String)
        (fields : List (String × JVal)) (sp : List (String × JVal)),
      jGet fields "scores" = some (JVal.obj sp) →
      jGet fields "reasoning" = some (JVal.obj []) →
      criteriaNames.all (fun c => sp.any (fun p => p.1 = c)) = true →
      (∀ p ∈ sp, ∃ q, p.2 = JVal.num q) →
      (validateBuild ev resp md now (JVal.obj fields)).isSome = true) := by
  refine ⟨?_, ?_, ?_, ?_⟩
  · intro ev resp md now h
    have hx : extractContent ev resp.toList = none :=
      extractContent_eq_none (extractDefault_eq_none h)
    unfold parse_evaluation_response
    rw [hx]
    rfl
  · intro ev resp md now s fields h1 h2 hor
    obtain ⟨v, hv, hobj⟩ := Option.bind_eq_some.mp h2
    have hcp : collectParts v = none := by
      cases hor with
      | inl hsc =>
        simp only [collectParts, Option.bind_eq_bind, Option.pure_def, hobj, Option.some_bind, hsc, Option.none_bind]
      | inr hre =>
        cases hsc : jGet fields "scores" with
        | none =>
          simp only [collectParts, Option.bind_eq_bind, Option.pure_def, hobj, Option.some_bind, hsc, Option.none_bind]
        | some sv =>
          simp only [collectParts, Option.bind_eq_bind, Option.pure_def, hobj, Option.some_bind, hsc, hre,
            Option.none_bind]
    unfold parse_evaluation_response
    rw [h1, Option.some_bind, hv, Option.some_bind]
    unfold validateBuild
    rw [hcp]
    rfl
  · intro ev resp md now s fields sp cn h1 h2 h3 h4 h5
    obtain ⟨v, hv, hobj⟩ := Option.bind_eq_some.mp h2
    obtain ⟨sv, hsv, hsp⟩ := Option.bind_eq_some.mp h3
    have hallf : criteriaNames.all (fun c => sp.any (fun p => p.1 = c)) = false := by
      apply List.all_eq_false.mpr
      refine ⟨cn, h4, ?_⟩
      simp [h5]
    have hcp : collectParts v = none := by
      cases hre : jGet fields "reasoning" with
      | none =>
        simp only [collectParts, Option.bind_eq_bind, Option.pure_def, hobj, Option.some_bind, hsv, hre,
          Option.none_bind]
      | some rv =>
        simp only [collectParts, Option.bind_eq_bind, Option.pure_def, hobj, Option.some_bind, hsv, hre, hsp, hallf,
          Bool.false_eq_true, if_false]
    unfold parse_evaluation_response
    rw [h1, Option.some_bind, hv, Option.some_bind]
    unfold validateBuild
    rw [hcp]
    rfl
  · intro ev resp md now fields sp hsc hre hall hnum
    obtain ⟨sq, hsq⟩ := mapOption_num_isSome sp hnum
    have hconf : calculate_response_confidence fields =
        some (min (1/2 + 0
          + (if ((jGet fields "key_strengths").map pyTruthy).getD false then 1/10 else 0)
          + (if ((jGet fields "key_weaknesses").map pyTruthy).getD false then 1/10 else 0)
          + (if ((jGet fields "improvement_recommendations").map pyTruthy).getD false
             then 1/10 else 0)) 1) := by
      simp only [calculate_response_confidence, hre, Option.getD_some, pyTruthy,
        List.isEmpty_nil, Bool.not_true, Bool.false_eq_true, if_false]
    have hcp : (collectParts (JVal.obj fields)).isSome = true := by
      simp only [collectParts, Option.bind_eq_bind, Option.pure_def, asObj,
        Option.some_bind, hsc, hre, hall, if_true, hsq, hconf,
        Option.isSome_some]
    rcases Option.isSome_iff_exists.mp hcp with ⟨parts, hparts⟩
    simp [validateBuild, hparts]

/-! ## Concrete witness data for the normalizer claims -/

/-- A response with no brace-delimited span at all. -/
def w6a : String := "the judge returned plain text with no json"

/-- A response whose JSON object lacks both `scores` and `reasoning`. -/
def w6bResp : String := "\x7b\"foo\": 1\x7d"

def w6bSpan : Chars :=
  (extractContent (.other "gpt") w6bResp.toList).get (by decide)

def w6bFields : List (String × JVal) :=
  ((jsonLoads w6bSpan).bind asObj).get (by decide)

/-- A response whose `scores` object is missing five of the six criteria. -/
def w6cResp : String :=
  "\x7b\"scores\": \x7b\"character_immersion\": 7\x7d, \"reasoning\": \x7b\x7d\x7d"

def w6cSpan : Chars :=
  (extractContent (.other "gpt") w6cResp.toList).get (by decide)

def w6cFields : List (String × JVal) :=
  ((jsonLoads w6cSpan).bind asObj).get (by decide)

def w6cSp : List (String × JVal) :=
  ((jGet w6cFields "scores").bind asObj).get (by decide)

/-- A scores object carrying all six criteria. -/
def w6dSp : List (String × JVal) :=
  [("character_immersion", JVal.num 7), ("story_progression", JVal.num 7),
   ("interactive_agency", JVal.num 7), ("emotional_journey", JVal.num 7),
   ("fantasy_fulfillment", JVal.num 7), ("character_authenticity", JVal.num 7)]

/-- A parsed object with complete scores but an empty reasoning mapping. -/
def w6dFields : List (String × JVal) :=
  [("scores", JVal.obj w6dSp), ("reasoning", JVal.obj [])]

theorem normalizer_failure_modes_witness :
    parse_evaluation_response (.other "gpt") w6a none "T" = none ∧
    parse_evaluation_response (.other "gpt") w6bResp none "T" = none ∧
    parse_evaluation_response (.other "gpt") w6cResp none "T" = none ∧
    (validateBuild (.other "gpt") "raw" none "T" (JVal.obj w6dFields)).isSome
      = true :=
  ⟨normalizer_failure_modes.1 (.other "gpt") w6a none "T" (by decide),
   normalizer_failure_modes.2.1 (.other "gpt") w6bResp none "T" w6bSpan
     w6bFields (Option.some_get _).symm (Option.some_get _).symm
     (Or.inl (Option.isNone_iff_eq_none.mp (by decide))),
   normalizer_failure_modes.2.2.1 (.other "gpt") w6cResp none "T" w6cSpan
     w6cFields w6cSp "story_progression" (Option.some_get _).symm
     (Option.some_get _).symm (Option.some_get _).symm (by decide) (by decide),
   normalizer_failure_modes.2.2.2 (.other "gpt") "raw" none "T" w6dFields
     w6dSp rfl rfl (by decide)
     (by intro p hp; fin_cases hp <;> exact ⟨7, rfl⟩)⟩

theorem asObj_eq_some {v : JVal} {l : List (String × JVal)}
    (h : asObj v = some l) : v = JVal.obj l := by
  cases v <;> simp [asObj] at h <;> simp [h]

theorem head?_dropWhile_rb (l : Chars) :
    l.dropWhile (fun c => c ≠ rb) = [] ∨
    (l.dropWhile (fun c => c ≠ rb)).head? = some rb := by
  induction l with
  | nil => exact Or.inl rfl
  | cons c t ih =>
    by_cases hc : c = rb
    · right
      simp [List.dropWhile_cons, hc]
    · simpa [List.dropWhile_cons, hc] using ih

/-- C8: for `deepseek_reasoner`, the truncation-repair stage is applied to
the extracted span before JSON parsing, but the greedy regex guarantees
every extracted span already ends with a closing brace, so the repair leaves
it unchanged; and whenever a record is produced at all, it is sound: the
repaired span decodes to a JSON object whose `scores` mapping carries all
six criteria, the record's scores are exactly those parsed values, and its
overall score is exactly their mean.  A truncated response therefore either
parses into a faithful record or fails explicitly (`none`): no record with a
silently wrong score can be produced. -/
theorem deepseek_truncation_soundness :
    (∀ (cs s : Chars), extractDefault cs = some s →
      endsWithRb s = true ∧ dsFix s = s) ∧
    (∀ (resp : String) (md : Option Metadata) (now : String)
        (rec : EvaluationResult),
      parse_evaluation_response .deepseek_reasoner resp md now = some rec →
      ∃ s fields sp,
        extractContent .deepseek_reasoner resp.toList = some s ∧
        jsonLoads s = some (JVal.obj fields) ∧
        jGet fields "scores" = some (JVal.obj sp) ∧
        criteriaNames.all (fun c => sp.any (fun p => p.1 = c)) = true ∧
        mapOption (fun p => (asNum p.2).map (fun q => (p.1, q))) sp
          = some rec.scores ∧
        rec.overall_score =
          (rec.scores.map (fun p => p.2)).sum / (rec.scores.length : ℚ)) := by
  constructor
  · intro cs s h
    have hend : endsWithRb s = true := by
      unfold extractDefault at h
      by_cases he :
          ((cs.dropWhile (fun c => c ≠ lb)).reverse.dropWhile
            (fun c => c ≠ rb)).reverse.isEmpty = true
      · rw [if_pos he] at h
        exact absurd h (by simp)
      · rw [if_neg he] at h
        have hs : s = ((cs.dropWhile (fun c => c ≠ lb)).reverse.dropWhile
            (fun c => c ≠ rb)).reverse := (Option.some.inj h).symm
        rcases head?_dropWhile_rb (cs.dropWhile (fun c => c ≠ lb)).reverse with
          hnil | hhead
        · rw [hnil] at he
          simp at he
        · unfold endsWithRb
          rw [hs, List.getLast?_reverse]
          simpa using hhead
    refine ⟨hend, ?_⟩
    unfold dsFix
    rw [if_pos hend]
  · intro resp md now rec h
    obtain ⟨s, hs, h₁⟩ := Option.bind_eq_some.mp h
    obtain ⟨v, hv, h₂⟩ := Option.bind_eq_some.mp h₁
    unfold validateBuild at h₂
    obtain ⟨parts, hparts, hrec⟩ := Option.map_eq_some'.mp h₂
    simp only [collectParts, Option.bind_eq_bind, Option.pure_def] at hparts
    obtain ⟨fields, hfields, h₃⟩ := Option.bind_eq_some.mp hparts
    obtain ⟨scoresV, hscoresV, h₄⟩ := Option.bind_eq_some.mp h₃
    obtain ⟨reasoningV, hreasoningV, h₅⟩ := Option.bind_eq_some.mp h₄
    obtain ⟨sp, hsp, h₆⟩ := Option.bind_eq_some.mp h₅
    by_cases hall : criteriaNames.all (fun c => sp.any (fun p => p.1 = c)) = true
    · rw [if_pos hall] at h₆
      obtain ⟨sq, hsq, h₇⟩ := Option.bind_eq_some.mp h₆
      obtain ⟨conf, _hconf, h₈⟩ := Option.bind_eq_some.mp h₇
      have hpr : parts = (sq, reasoningV, conf) := (Option.some.inj h₈).symm
      refine ⟨s, fields, sp, hs, ?_, ?_, hall, ?_, ?_⟩
      · rw [← asObj_eq_some hfields]
        exact hv
      · rw [← asObj_eq_some hsp]
        exact hscoresV
      · rw [← hrec]
        rw [hpr]
        exact hsq
      · rw [← hrec, hpr]
        rfl
    · rw [if_neg hall] at h₆
      exact absurd h₆ (by simp)

/-- A well-formed DeepSeek response with explanatory preamble and postamble. -/
def w8Resp : String :=
  "Evaluation follows. \x7b\"scores\": \x7b\"character_immersion\": 8, \"story_progression\": 7, \"interactive_agency\": 7, \"emotional_journey\": 7, \"fantasy_fulfillment\": 7, \"character_authenticity\": 6\x7d, \"reasoning\": \x7b\x7d\x7d end of review"

set_option maxRecDepth 4000 in
def w8Span : Chars := (extractDefault w8Resp.toList).get (by decide)

set_option maxRecDepth 4000 in
def w8Rec : EvaluationResult :=
  (parse_evaluation_response .deepseek_reasoner w8Resp none "T").get (by decide)

/-- A response truncated mid-object, before any closing brace. -/
def w8Trunc : String := "\x7b\"scores\": \x7b\"character_immersion\": 8"

set_option maxRecDepth 4000 in
theorem deepseek_truncation_soundness_witness :
    (endsWithRb w8Span = true ∧ dsFix w8Span = w8Span) ∧
    (∃ s fields sp,
      extractContent .deepseek_reasoner w8Resp.toList = some s ∧
      jsonLoads s = some (JVal.obj fields) ∧
      jGet fields "scores" = some (JVal.obj sp) ∧
      criteriaNames.all (fun c => sp.any (fun p => p.1 = c)) = true ∧
      mapOption (fun p => (asNum p.2).map (fun q => (p.1, q))) sp
        = some w8Rec.scores ∧
      w8Rec.overall_score =
        (w8Rec.scores.map (fun p => p.2)).sum / (w8Rec.scores.length : ℚ)) ∧
    parse_evaluation_response .deepseek_reasoner w8Trunc none "T" = none :=
  ⟨deepseek_truncation_soundness.1 w8Resp.toList w8Span (Option.some_get _).symm,
   deepseek_truncation_soundness.2 w8Resp none "T" w8Rec
     (Option.some_get _).symm,
   Option.isNone_iff_eq_none.mp (by decide)⟩

/-! ## C5: the overall score of a produced record -/

/-- Python `scores.get(k)`-style lookup with default 0 on the record's score
mapping. -/
def lookupScore (l : List (String × ℚ)) (k : String) : ℚ :=
  ((l.find? (fun p => p.1 = k)).map (fun p => p.2)).getD 0

theorem sum_values_eq_sum_lookup (l : List (String × ℚ))
    (h : (l.map Prod.fst).Nodup) :
    (l.map (fun p => p.2)).sum
      = ((l.map Prod.fst).map (fun k => lookupScore l k)).sum := by
  induction l with
  | nil => rfl
  | cons p t ih =>
    simp only [List.map_cons, List.sum_cons, List.nodup_cons] at h ⊢
    have hhead : lookupScore (p :: t) p.1 = p.2 := by
      simp [lookupScore, List.find?_cons]
    have htail : ∀ k ∈ t.map Prod.fst,
        lookupScore (p :: t) k = lookupScore t k := by
      intro k hk
      have hne : ¬(p.1 = k) := fun hc => h.1 (hc ▸ hk)
      simp [lookupScore, List.find?_cons, hne]
    rw [hhead, List.map_congr_left htail, ← ih h.2]

/-- C5 (amended): every record the normalizer produces has `overall_score`
equal to the mean of all entries of its `scores` mapping — the mapping may
hold keys beyond the six criteria, which then enter the mean; when its key
set is exactly the six criteria the overall score is the unweighted mean of
the six criterion scores.  Values are stored as parsed, with no clamping. -/
theorem overall_score_mean_of_entries (ev : Evaluator) (resp : String)
    (md : Option Metadata) (now : String) (rec : EvaluationResult)
    (h : parse_evaluation_response ev resp md now = some rec) :
    rec.overall_score =
      (rec.scores.map (fun p => p.2)).sum / (rec.scores.length : ℚ) ∧
    ((rec.scores.map Prod.fst).Perm criteriaNames →
      rec.overall_score =
        ((criteriaNames.map (fun c => lookupScore rec.scores c)).sum) / 6) := by
  obtain ⟨s, _hs, h₁⟩ := Option.bind_eq_some.mp h
  obtain ⟨v, _hv, h₂⟩ := Option.bind_eq_some.mp h₁
  unfold validateBuild at h₂
  obtain ⟨parts, _hparts, hrec⟩ := Option.map_eq_some'.mp h₂
  have hov : rec.overall_score =
      (rec.scores.map (fun p => p.2)).sum / (rec.scores.length : ℚ) := by
    rw [← hrec]
    rfl
  refine ⟨hov, ?_⟩
  intro hperm
  have hnodup : (rec.scores.map Prod.fst).Nodup :=
    (List.Perm.nodup_iff hperm).mpr (by decide)
  have hsum := sum_values_eq_sum_lookup rec.scores hnodup
  have hpermsum :
      ((rec.scores.map Prod.fst).map (fun k => lookupScore rec.scores k)).sum
        = (criteriaNames.map (fun k => lookupScore rec.scores k)).sum :=
    (hperm.map (fun k => lookupScore rec.scores k)).sum_eq
  have hlen : (rec.scores.length : ℚ) = 6 := by
    have h1 : rec.scores.length = (rec.scores.map Prod.fst).length :=
      (List.length_map _ _).symm
    have h2 := hperm.length_eq
    rw [h1, h2]
    norm_num [criteriaNames]
  rw [hov, hlen, hsum, hpermsum]

/-- A judge response whose scores object carries the six criteria plus one
extra key with an out-of-range value. -/
def c5Resp : String :=
  "\x7b\"scores\": \x7b\"character_immersion\": 6, \"story_progression\": 6, \"interactive_agency\": 6, \"emotional_journey\": 6, \"fantasy_fulfillment\": 6, \"character_authenticity\": 6, \"extra\": 13\x7d, \"reasoning\": \x7b\x7d\x7d"

set_option maxRecDepth 4000 in
/-- A record parsed from `c5Resp`: its scores mapping has seven entries. -/
def c5WRec : EvaluationResult :=
  (parse_evaluation_response (.other "gpt") c5Resp none "T").get (by decide)

set_option maxRecDepth 4000 in
/-- The claim as stated fails: this record's `overall_score` is 7 (the mean
of all seven entries of its scores mapping), not 6 (the mean of the six
criterion scores in that mapping). -/
theorem overall_score_six_mean_counterexample :
    (parse_evaluation_response (.other "gpt") c5Resp none "T").map
      (fun r => r.overall_score) = some 7 ∧
    (parse_evaluation_response (.other "gpt") c5Resp none "T").map
      (fun r => ((criteriaNames.map (fun c => lookupScore r.scores c)).sum) / 6)
      = some 6 ∧
    (7 : ℚ) ≠ 6 :=
  ⟨by decide, by decide, by norm_num⟩

/-- A six-key response for exercising the exact-criteria branch. -/
def c5GoodResp : String :=
  "\x7b\"scores\": \x7b\"character_immersion\": 6, \"story_progression\": 6, \"interactive_agency\": 6, \"emotional_journey\": 6, \"fantasy_fulfillment\": 6, \"character_authenticity\": 6\x7d, \"reasoning\": \x7b\x7d\x7d"

set_option maxRecDepth 4000 in
def c5WRec₂ : EvaluationResult :=
  (parse_evaluation_response (.other "gpt") c5GoodResp none "T").get (by decide)

set_option maxRecDepth 4000 in
theorem overall_score_mean_of_entries_witness :
    (c5WRec.overall_score =
      (c5WRec.scores.map (fun p => p.2)).sum / (c5WRec.scores.length : ℚ)) ∧
    (c5WRec₂.overall_score =
      ((criteriaNames.map (fun c => lookupScore c5WRec₂.scores c)).sum) / 6) ∧
    lookupScore c5WRec.scores "extra" = 13 :=
  ⟨(overall_score_mean_of_entries (.other "gpt") c5Resp none "T" c5WRec
      (Option.some_get _).symm).1,
   (overall_score_mean_of_entries (.other "gpt") c5GoodResp none "T" c5WRec₂
      (Option.some_get _).symm).2 (by decide),
   by decide⟩

/-! ## C9: determinism of the normalizer -/

/-- Blank out the timestamp field, the only record component drawn from the
wall clock rather than from the inputs. -/
def eraseTimestamp (o : Option EvaluationResult) : Option EvaluationResult :=
  o.map (fun r => { r with timestamp := "" })

/-- A complete judge response used to exhibit the timestamp difference. -/
def c9Resp : String :=
  "\x7b\"scores\": \x7b\"character_immersion\": 7, \"story_progression\": 7, \"interactive_agency\": 7, \"emotional_journey\": 7, \"fantasy_fulfillment\": 7, \"character_authenticity\": 7\x7d, \"reasoning\": \x7b\x7d\x7d"

set_option maxRecDepth 4000 in
/-- C9 as stated is refuted: two runs of the normalizer on the same response,
evaluator and metadata at different wall-clock instants yield records that
differ (in the `timestamp` field), so the records are not identical in every
field. -/
theorem normalizer_timestamp_counterexample :
    parse_evaluation_response (.other "gpt") c9Resp none "2025-01-01T00:00:00"
      ≠ parse_evaluation_response (.other "gpt") c9Resp none
          "2025-01-01T00:00:01" ∧
    (parse_evaluation_response (.other "gpt") c9Resp none
      "2025-01-01T00:00:00").isSome = true := by
  constructor
  · intro hEq
    have h1 : (parse_evaluation_response (.other "gpt") c9Resp none
        "2025-01-01T00:00:00").map (fun r => r.timestamp)
        = some "2025-01-01T00:00:00" := by decide
    have h2 : (parse_evaluation_response (.other "gpt") c9Resp none
        "2025-01-01T00:00:01").map (fun r => r.timestamp)
        = some "2025-01-01T00:00:01" := by decide
    rw [hEq, h2] at h1
    exact absurd (Option.some.inj h1) (by decide)
  · decide

/-- C9 (amended): apart from the timestamp — which records the wall-clock
instant of the call — the normalizer is a pure deterministic function of the
raw response, the evaluator identifier and the metadata: two runs at any two
instants agree on every other field of the outcome. -/
theorem normalizer_deterministic_modulo_timestamp (ev : Evaluator)
    (resp : String) (md : Option Metadata) (t₁ t₂ : String) :
    eraseTimestamp (parse_evaluation_response ev resp md t₁)
      = eraseTimestamp (parse_evaluation_response ev resp md t₂) := by
  unfold parse_evaluation_response
  cases hx : extractContent ev resp.toList with
  | none => rfl
  | some s =>
    simp only [Option.some_bind]
    cases hv : jsonLoads s with
    | none => rfl
    | some v =>
      simp only [Option.some_bind]
      unfold validateBuild eraseTimestamp
      cases hcp : collectParts v with
      | none => rfl
      | some parts => rfl
